import Mathlib

/-!
Shallow embedding of `stock_analysis.py` (stock-market PDF price-list
pipeline): filename date resolution, per-document row assembly and footer
filtering, tabulation into a fixed 14-column frame, the cleaning pass
(numeric/date coercion, whitespace-to-missing, dropna), the time-series
derivation (day index, percent change, growth, cumulative return), the
aggregator (per-symbol totals, means, Pearson correlation) and the
persistence/diagnostic control flow.

Machine reals of the source (Python floats) are modelled by `ℚ` wherever the
computation stays in field operations, and by `ℝ` only where a square root
occurs (the Pearson coefficient).  A pandas `NaN`/`NaT` is modelled by
`Option.none`; a raised Python exception by `Except.error`.
-/

namespace StockAnalysis

/-! ### Text utilities (models of Python `str`/`float`/pandas parsing) -/

def digitVal (c : Char) : ℕ := c.toNat - 48

def natOfDigits (cs : List Char) : ℕ := cs.foldl (fun a c => a * 10 + digitVal c) 0

/-- Trim leading and trailing whitespace, as `float(...)`/`pd.to_numeric`
tolerate surrounding whitespace. -/
def trimWS (cs : List Char) : List Char :=
  ((cs.dropWhile Char.isWhitespace).reverse.dropWhile Char.isWhitespace).reverse

/-- Unsigned decimal numeral: digits, optionally a point and fraction digits,
at least one digit overall (so `"12"`, `"12."`, `".5"` parse; `"."`, `""`,
`"12a"` do not). -/
def parseUnsigned (cs : List Char) : Option ℚ :=
  let ip := cs.takeWhile Char.isDigit
  let rest := cs.dropWhile Char.isDigit
  match rest with
  | [] => if ip.isEmpty then none else some (natOfDigits ip : ℚ)
  | '.' :: fp =>
      if fp.all Char.isDigit && !(ip.isEmpty && fp.isEmpty) then
        some ((natOfDigits ip : ℚ) + (natOfDigits fp : ℚ) / (10 : ℚ) ^ fp.length)
      else none
  | _ => none

/-- Model of `pd.to_numeric(·, errors='coerce')` on one string: optional sign,
decimal numeral; failure is `none` (pandas `NaN`). -/
def parseNumeric (s : String) : Option ℚ :=
  match trimWS s.data with
  | '-' :: rest => (parseUnsigned rest).map (fun q => -q)
  | '+' :: rest => parseUnsigned rest
  | cs => parseUnsigned cs

def leapYear (y : ℕ) : Bool := (y % 4 == 0 && y % 100 != 0) || y % 400 == 0

def daysInMonth (y m : ℕ) : ℕ :=
  if m == 2 then (if leapYear y then 29 else 28)
  else if m == 4 || m == 6 || m == 9 || m == 11 then 30
  else 31

/-- Model of `pd.to_datetime` on one ISO `YYYY-MM-DD` string (the only shape
the pipeline ever feeds it, since dates are stamped by
`strftime("%Y-%m-%d")`).  A valid date is encoded as the natural number
`y*10000 + m*100 + d`; since `m ≤ 12 < 100` and `d ≤ 31 < 100` this encoding
is injective and order-isomorphic to chronological order on valid dates. -/
def parseDate (s : String) : Option ℕ :=
  match s.data with
  | [y1, y2, y3, y4, '-', m1, m2, '-', d1, d2] =>
      if [y1, y2, y3, y4, m1, m2, d1, d2].all Char.isDigit then
        let y := natOfDigits [y1, y2, y3, y4]
        let m := natOfDigits [m1, m2]
        let d := natOfDigits [d1, d2]
        if 1 ≤ m ∧ m ≤ 12 ∧ 1 ≤ d ∧ d ≤ daysInMonth y m then
          some (y * 10000 + m * 100 + d)
        else none
      else none
  | _ => none

/-! ### Rows and per-document assembly -/

/-- One table cell as returned by `pdfplumber`: a string or Python `None`. -/
abbrev Cell := Option String

abbrev RawRow := List Cell

/-- The footer marker of line 51 of the source. -/
def markerStr : String := "NIGERIAN EXCHANGE"

/-- Lines 39-46: for every page with a table, skip the header row and append
the document date as a trailing cell of each remaining row. -/
def stampPages (pages : List (Option (List RawRow))) (date : String) : List RawRow :=
  pages.flatMap (fun pg =>
    match pg with
    | none => []
    | some tbl => (tbl.drop 1).map (fun row => row ++ [some date]))

/-- Lines 50-52: `"NIGERIAN EXCHANGE" not in row` — Python list membership,
i.e. a row is kept unless one of its cells EQUALS the marker string. -/
def dropMarkerRows (rows : List RawRow) : List RawRow :=
  rows.filter (fun row => !(decide ((some markerStr) ∈ row)))

/-- The rows one document contributes to `all_data` (lines 37-53). -/
def assembleDoc (pages : List (Option (List RawRow))) (date : String) : List RawRow :=
  dropMarkerRows (stampPages pages date)

/-! ### Tabulation (line 65, `pd.DataFrame(all_data, columns=columns)`) -/

def numColumns : ℕ := 14

def maxWidth (rows : List RawRow) : ℕ := rows.foldr (fun r a => max r.length a) 0

def padTo (n : ℕ) (r : RawRow) : RawRow := r ++ List.replicate (n - r.length) none

/-- Model of the `pd.DataFrame(all_data, columns=columns)` constructor on a
list of lists: pandas first pads every row with missing cells up to the
maximum row width, then raises `ValueError` iff that width differs from the
number of column labels (14). -/
def tabulate (rows : List RawRow) : Except String (List RawRow) :=
  if maxWidth rows = numColumns then .ok (rows.map (padTo numColumns))
  else .error ("14 columns passed, passed data had " ++ toString (maxWidth rows) ++ " columns")

/-! ### The cleaning pass (lines 66-80) -/

/-- The four columns kept at line 68, by their positions in the 14-column
schema of lines 62-63: Symbol = 1, Close = 6, Volume = 10, Date = 13. -/
structure ProjRow where
  symbol : Cell
  close : Cell
  volume : Cell
  date : Cell
deriving DecidableEq

def projectRow (r : RawRow) : ProjRow :=
  ⟨r.getD 1 none, r.getD 6 none, r.getD 10 none, r.getD 13 none⟩

/-- `astype(str)` renders Python `None` as the string `"None"`. -/
def cellStr (c : Cell) : String := c.getD "None"

def stripCommas (s : String) : String := String.mk (s.data.filter (fun c => !(c == ',')))

/-- Line 71: `pd.to_numeric(df['Close'], errors='coerce')`; a missing cell is
already `NaN`. -/
def closeCoerce (c : Cell) : Option ℚ := c.bind parseNumeric

/-- Line 73: `pd.to_numeric(df['Volume'].astype(str).str.replace(',', ''),
errors='coerce')`. -/
def volCoerce (c : Cell) : Option ℚ := parseNumeric (stripCommas (cellStr c))

/-- Line 80's `replace(r'^\s*$', pd.NA, regex=True)` as it acts on the Symbol
column: an empty or all-whitespace string becomes missing. -/
def symCoerce (c : Cell) : Option String :=
  c.bind (fun s => if s.data.all Char.isWhitespace then none else some s)

structure CleanRecord where
  symbol : String
  close : ℚ
  volume : ℚ
  date : ℕ
deriving DecidableEq

/-- One row of the cleaning pass: the row survives `dropna` iff all four
coercions produce a value (a missing date cell is `NaT`, hence dropped). -/
def cleanRow (p : ProjRow) : Option CleanRecord := do
  let s ← symCoerce p.symbol
  let c ← closeCoerce p.close
  let v ← volCoerce p.volume
  let d ← p.date.bind parseDate
  pure ⟨s, c, v, d⟩

def dateErrMsg : String := "Unknown datetime string format"

/-- Line 76 is `pd.to_datetime(df['Date'])` with NO `errors='coerce'`: a
present-but-unparseable date cell raises for the whole column.  A `None`
cell becomes `NaT` without raising. -/
def dateRaises (rs : List ProjRow) : Bool :=
  rs.any (fun p =>
    match p.date with
    | some s => (parseDate s).isNone
    | none => false)

/-- The cleaning pass over the projected frame (lines 71-80): raise if any
present date cell is unparseable, otherwise coerce every row and drop the
rows with a missing required field. -/
def cleanProj (rs : List ProjRow) : Except String (List CleanRecord) :=
  if dateRaises rs then .error dateErrMsg else .ok (rs.filterMap cleanRow)

/-- Lines 65-80 end to end: tabulate the assembled rows, project, clean. -/
def cleanCorpus (rows : List RawRow) : Except String (List CleanRecord) :=
  match tabulate rows with
  | .error e => .error e
  | .ok t => cleanProj (t.map projectRow)

/-- The cleaning pass re-applied to its own already-typed output: numeric and
date coercion are the identity on typed values, so only the
whitespace-symbol replacement followed by `dropna` can still drop a row. -/
def cleanTyped (l : List CleanRecord) : List CleanRecord :=
  l.filter (fun r => !(r.symbol.data.all Char.isWhitespace))

/-! ### Time-series derivation (lines 86-113) -/

/-- Pointwise update of a per-symbol state map (the running state a pandas
`groupby` keeps for each group key). -/
def updFn {β : Type} (f : String → β) (k : String) (v : β) : String → β :=
  fun x => if x = k then v else f x

/-- Line 87's sort key: `sort_values(by=["Symbol", "Date"])`, lexicographic
on (symbol, date).  A multi-key pandas sort uses `np.lexsort`, which is
stable. -/
def recLE (a b : CleanRecord) : Prop :=
  a.symbol < b.symbol ∨ (a.symbol = b.symbol ∧ a.date ≤ b.date)

instance : DecidableRel recLE := fun a b =>
  @instDecidableOr _ _ (decidable_of_iff _ String.lt_iff_toList_lt.symm)
    (@instDecidableAnd _ _ (String.decEq a.symbol b.symbol) (Nat.decLe a.date b.date))

instance : IsTotal CleanRecord recLE := by
  constructor
  intro a b
  rcases lt_trichotomy a.symbol b.symbol with h | h | h
  · exact Or.inl (Or.inl h)
  · rcases Nat.le_total a.date b.date with hd | hd
    · exact Or.inl (Or.inr ⟨h, hd⟩)
    · exact Or.inr (Or.inr ⟨h.symm, hd⟩)
  · exact Or.inr (Or.inl h)

instance : IsTrans CleanRecord recLE := by
  constructor
  intro a b c hab hbc
  rcases hab with h1 | ⟨e1, d1⟩
  · rcases hbc with h2 | ⟨e2, _⟩
    · exact Or.inl (h1.trans h2)
    · exact Or.inl (e2 ▸ h1)
  · rcases hbc with h2 | ⟨e2, d2⟩
    · exact Or.inl (e1 ▸ h2)
    · exact Or.inr ⟨e1.trans e2, d1.trans d2⟩

def sortRecords (c : List CleanRecord) : List CleanRecord :=
  List.insertionSort recLE c

/-- Line 90: `df.groupby("Symbol").cumcount() + 1`, a running per-symbol
count over the frame in its current (sorted) order. -/
def assignDays : List CleanRecord → (String → ℕ) → List (CleanRecord × ℕ)
  | [], _ => []
  | r :: t, cnt =>
      (r, cnt r.symbol + 1) :: assignDays t (updFn cnt r.symbol (cnt r.symbol + 1))

structure DRec where
  row : CleanRecord
  day : ℕ
  pct : Option ℚ
  growth : ℚ
  cumret : ℚ
deriving DecidableEq

/-- Lines 108-113 as one per-symbol scan: `pct_change() * 100` (missing for a
symbol's first row), `Growth = pct/100 + 1` with the missing entry filled
with 1, `Cumulative_Return = cumprod(Growth)` then `(x - 1) * 100`.  The
state maps carry each symbol's previous close and running product, exactly
the state the chained `groupby` passes of the source carry per group. -/
def addReturns : List (CleanRecord × ℕ) → (String → Option ℚ) → (String → ℚ) → List DRec
  | [], _, _ => []
  | (r, d) :: t, lastC, prodm =>
      let pct := (lastC r.symbol).map (fun pv => (r.close / pv - 1) * 100)
      let g : ℚ := match pct with | none => 1 | some p => p / 100 + 1
      let cp := prodm r.symbol * g
      ⟨r, d, pct, g, (cp - 1) * 100⟩ ::
        addReturns t (updFn lastC r.symbol (some r.close)) (updFn prodm r.symbol cp)

/-- Lines 86-113: sort, day index, returns. -/
def derivedCorpus (c : List CleanRecord) : List DRec :=
  addReturns (assignDays (sortRecords c) (fun _ => 0)) (fun _ => none) (fun _ => 1)

/-- One symbol's series of the derived corpus, in output order. -/
def symbolSeries (c : List CleanRecord) (s : String) : List DRec :=
  (derivedCorpus c).filter (fun d => decide (d.row.symbol = s))

/-- The single-symbol specialization of `addReturns` (what its output looks
like when filtered to one symbol's rows). -/
def seriesReturns : List (CleanRecord × ℕ) → Option ℚ → ℚ → List DRec
  | [], _, _ => []
  | (r, d) :: t, lastC, prodm =>
      let pct := lastC.map (fun pv => (r.close / pv - 1) * 100)
      let g : ℚ := match pct with | none => 1 | some p => p / 100 + 1
      let cp := prodm * g
      ⟨r, d, pct, g, (cp - 1) * 100⟩ :: seriesReturns t (some r.close) cp

/-! ### Aggregation and correlation (lines 94-104) -/

/-- `groupby('Symbol')` group keys, sorted ascending (pandas default
`sort=True`). -/
def symbolsOf (c : List CleanRecord) : List String :=
  List.insertionSort (fun a b => a ≤ b) (List.dedup (c.map (fun r => r.symbol)))

def sumVolume (c : List CleanRecord) (s : String) : ℚ :=
  ((c.filter (fun r => decide (r.symbol = s))).map (fun r => r.volume)).sum

def meanClose (c : List CleanRecord) (s : String) : ℚ :=
  (((c.filter (fun r => decide (r.symbol = s))).map (fun r => r.close)).sum) /
    ((c.filter (fun r => decide (r.symbol = s))).length : ℚ)

/-- Line 94: per-symbol total volume, sorted by volume descending. -/
def volRanked (c : List CleanRecord) : List (String × ℚ) :=
  List.insertionSort (fun a b => b.2 ≤ a.2)
    ((symbolsOf c).map (fun s => (s, sumVolume c s)))

/-- Line 98: `pd.merge(total_volume, average_close, on="Symbol")` — an inner
join on symbol; every symbol of the left table occurs exactly once on the
right, so each left row just gains that symbol's mean close. -/
def aggRows (c : List CleanRecord) : List (String × ℚ × ℚ) :=
  (volRanked c).map (fun p => (p.1, p.2, meanClose c p.1))

def corrPairs (c : List CleanRecord) : List (ℚ × ℚ) :=
  (aggRows c).map (fun t => (t.2.1, t.2.2))

def listMean (l : List ℚ) : ℚ := l.sum / (l.length : ℚ)

def devSq (l : List ℚ) : ℚ := (l.map (fun x => (x - listMean l) ^ 2)).sum

def devProd (ps : List (ℚ × ℚ)) : ℚ :=
  (ps.map (fun p => (p.1 - listMean (ps.map (fun q => q.1))) *
                    (p.2 - listMean (ps.map (fun q => q.2))))).sum

/-- Model of `Series.corr` (line 103): Pearson coefficient; `NaN` (here
`none`) when fewer than two observations exist or either column has zero
variance (the `0/0` the `ddof=1` standard deviations produce). -/
noncomputable def pearson (ps : List (ℚ × ℚ)) : Option ℝ :=
  let sxx := devSq (ps.map (fun q => q.1))
  let syy := devSq (ps.map (fun q => q.2))
  if ps.length < 2 ∨ sxx = 0 ∨ syy = 0 then none
  else some ((devProd ps : ℝ) / (Real.sqrt (sxx : ℝ) * Real.sqrt (syy : ℝ)))

/-- The correlation the script reports at lines 103-104. -/
noncomputable def corrOf (c : List CleanRecord) : Option ℝ :=
  pearson (corrPairs c)

/-- Written from the spec's words (§4.5): "the Pearson correlation
coefficient between total volume and mean close across all AggregateRows; if
fewer than two symbols exist, correlation is undefined (report as a missing
value, not an error)".  Stated with the textbook single square root
`√(Sxx·Syy)`, to be compared with the source model `corrOf`. -/
noncomputable def pearsonSpec (ps : List (ℚ × ℚ)) : Option ℝ :=
  let sxx := devSq (ps.map (fun q => q.1))
  let syy := devSq (ps.map (fun q => q.2))
  if ps.length < 2 ∨ sxx = 0 ∨ syy = 0 then none
  else some ((devProd ps : ℝ) / Real.sqrt ((sxx : ℝ) * (syy : ℝ)))

/-! ### Per-document batch loop (lines 24-57) -/

def monthNames : List String :=
  ["January", "February", "March", "April", "May", "June", "July", "August",
   "September", "October", "November", "December"]

def lowerStr (s : String) : String := String.mk (s.data.map Char.toLower)

/-- `%B` month lookup of `strptime` (case-insensitive full month name),
returning the 1-based month number. -/
def monthIndex (w : String) : Option ℕ :=
  (monthNames.findIdx? (fun n => lowerStr n == lowerStr w)).map (fun i => i + 1)

def allDigits (s : String) : Bool := !s.data.isEmpty && s.data.all Char.isDigit

def pad2 (n : ℕ) : String := if n < 10 then "0" ++ toString n else toString n

def pad4 (n : ℕ) : String :=
  if n < 10 then "000" ++ toString n
  else if n < 100 then "00" ++ toString n
  else if n < 1000 then "0" ++ toString n
  else toString n

def beginsWith : List Char → List Char → Bool
  | [], _ => true
  | _ :: _, [] => false
  | p :: ps, c :: cs => p == c && beginsWith ps cs

/-- One step below: Python `str.replace(old, "")` — left-to-right
non-overlapping removal of every occurrence; structural on a fuel that
bounds the scan length. -/
def removeAllAux (pat : List Char) : ℕ → List Char → List Char
  | _, [] => []
  | 0, l => l
  | fuel + 1, c :: t =>
      if !pat.isEmpty && beginsWith pat (c :: t) then
        removeAllAux pat fuel (List.drop (pat.length - 1) t)
      else c :: removeAllAux pat fuel t

def removeAll (pat : String) (s : List Char) : List Char :=
  removeAllAux pat.data s.length s

/-- Python `str.split("_")`. -/
def splitUnderscore : List Char → List (List Char)
  | [] => [[]]
  | c :: t =>
      let r := splitUnderscore t
      if c == '_' then [] :: r
      else
        match r with
        | [] => [[c]]
        | h :: t2 => (c :: h) :: t2

/-- Lines 31-32: strip every occurrence of `"DAILY_PRICE_LIST"` and `".pdf"`,
strip leading underscores, parse `"%B_%d_%Y"` (month name, 1-2 digit day
validated against the calendar, up to 4 digit year), and re-format as ISO
`"%Y-%m-%d"`.  `none` models the `ValueError` `strptime` raises. -/
def resolveFileDate (name : String) : Option String :=
  let base := (removeAll ".pdf" (removeAll "DAILY_PRICE_LIST" name.data)).dropWhile
    (fun c => c == '_')
  match (splitUnderscore base).map String.mk with
  | [mon, day, year] => do
      let m ← monthIndex mon
      if allDigits day && day.length ≤ 2 && allDigits year && year.length ≤ 4 then
        let d := natOfDigits day.data
        let y := natOfDigits year.data
        if 1 ≤ d ∧ d ≤ daysInMonth y m then
          pure (pad4 y ++ "-" ++ pad2 m ++ "-" ++ pad2 d)
        else none
      else none
  | _ => none

/-- Python `file_name.endswith(".pdf")` of line 27. -/
def endsWithPdf (s : String) : Bool := beginsWith ".pdf".data.reverse s.data.reverse

/-- One input document: its filename and the outcome of opening/reading it
through `pdfplumber` (each page optionally yields a table of raw rows);
`Except.error` models any exception raised while opening or reading. -/
structure PdfDoc where
  name : String
  content : Except String (List (Option (List RawRow)))

/-- Lines 29-53 for one document: resolve the filename date (a failure is the
`strptime` `ValueError`), open and extract (a failure is the collaborator's
exception), assemble and filter rows. -/
def processFile (f : PdfDoc) : Except String (List RawRow) :=
  match resolveFileDate f.name with
  | none => .error ("time data does not match format: " ++ f.name)
  | some d =>
      match f.content with
      | .error e => .error e
      | .ok pages => .ok (assembleDoc pages d)

/-- Lines 26-57: the per-file loop with its `try/except`: non-`.pdf` entries
are skipped silently; a failing document contributes an error log naming the
file and processing continues with the remaining files.  The first component
is `all_data`, the second the emitted error diagnostics. -/
def processBatch : List PdfDoc → List RawRow × List String
  | [] => ([], [])
  | f :: rest =>
      let acc := processBatch rest
      if endsWithPdf f.name then
        match processFile f with
        | .ok rs => (rs ++ acc.1, acc.2)
        | .error e => (acc.1, ("Error processing " ++ f.name ++ ": " ++ e) :: acc.2)
      else acc

/-! ### Post-clean control flow and persistence (lines 82-84, 115-127) -/

structure SinkWrite where
  path : String
  append : Bool
deriving DecidableEq

def snapshotPath : String := "output.csv"

def historyPath : String := "stock_history.csv"

def noDataMsg : String := "No valid stock data remaining after cleaning. Exiting."

/-- Lines 82-127 control flow: an empty cleaned corpus prints the no-data
message and exits before any file is written; otherwise the snapshot is
overwritten and the history file appended (or created with a header). -/
def postClean (histExists : Bool) (corpus : List CleanRecord) : List SinkWrite × List String :=
  if corpus.isEmpty then ([], [noDataMsg])
  else
    ([⟨snapshotPath, false⟩, ⟨historyPath, histExists⟩],
     ["Full processed data saved to 'output.csv'",
      if histExists then "Appended data to 'stock_history.csv'"
      else "Created and saved data to 'stock_history.csv'"])

/-! ### Spec-side definitions (for refutations and refinement comparisons) -/

/-- Spec wording (§4.2): the concatenation of a row's cell values. -/
def concatCells (row : RawRow) : String := String.join (row.map (fun c => c.getD ""))

def hasSub (pat : List Char) : List Char → Bool
  | [] => beginsWith pat []
  | c :: t => beginsWith pat (c :: t) || hasSub pat t

/-- Spec wording (§4.2): the concatenated cell values contain the literal
footer marker as a substring. -/
def specMarkerHit (row : RawRow) : Bool := hasSub markerStr.data (concatCells row).data

/-! ### Helper lemmas: assembly, batch, cleaning -/

theorem mem_dropMarkerRows {rows : List RawRow} {row : RawRow} :
    row ∈ dropMarkerRows rows ↔ row ∈ rows ∧ (some markerStr) ∉ row := by
  simp [dropMarkerRows, List.mem_filter]

theorem processBatch_fst (files : List PdfDoc) :
    (processBatch files).1 = files.flatMap (fun f =>
      if endsWithPdf f.name then
        match processFile f with
        | .ok rs => rs
        | .error _ => []
      else []) := by
  induction files with
  | nil => rfl
  | cons f rest ih =>
      simp only [processBatch, List.flatMap_cons]
      by_cases hp : endsWithPdf f.name
      · simp only [hp, if_true]
        cases hf : processFile f <;> simp [hf, ih]
      · simp [hp, ih]

theorem processBatch_snd (files : List PdfDoc) :
    (processBatch files).2 = files.filterMap (fun f =>
      if endsWithPdf f.name then
        match processFile f with
        | .ok _ => none
        | .error e => some ("Error processing " ++ f.name ++ ": " ++ e)
      else none) := by
  induction files with
  | nil => rfl
  | cons f rest ih =>
      simp only [processBatch, List.filterMap_cons]
      by_cases hp : endsWithPdf f.name
      · simp only [hp, if_true]
        cases hf : processFile f <;> simp [hf, ih]
      · simp [hp, ih]

theorem processFile_ok {f : PdfDoc} {rs : List RawRow} (h : processFile f = .ok rs) :
    ∃ d pages, resolveFileDate f.name = some d ∧ f.content = .ok pages ∧
      rs = assembleDoc pages d := by
  unfold processFile at h
  cases hd : resolveFileDate f.name with
  | none => rw [hd] at h; exact absurd h (by simp)
  | some d =>
      rw [hd] at h
      cases hc : f.content with
      | error e => rw [hc] at h; exact absurd h (by simp)
      | ok pages =>
          rw [hc] at h
          exact ⟨d, pages, rfl, rfl, (Except.ok.inj h).symm⟩

theorem cleanRow_eq_some {p : ProjRow} {r : CleanRecord} (h : cleanRow p = some r) :
    symCoerce p.symbol = some r.symbol ∧ closeCoerce p.close = some r.close ∧
      volCoerce p.volume = some r.volume ∧ p.date.bind parseDate = some r.date := by
  unfold cleanRow at h
  cases h1 : symCoerce p.symbol <;> rw [h1] at h
  · exact absurd h (by simp)
  cases h2 : closeCoerce p.close <;> rw [h2] at h
  · exact absurd h (by simp)
  cases h3 : volCoerce p.volume <;> rw [h3] at h
  · exact absurd h (by simp)
  cases h4 : p.date.bind parseDate <;> rw [h4] at h
  · exact absurd h (by simp)
  simp only [Option.some_bind, Option.pure_def] at h
  cases h
  exact ⟨rfl, rfl, rfl, rfl⟩

theorem symCoerce_some {c : Cell} {s : String} (h : symCoerce c = some s) :
    s.data.all Char.isWhitespace = false := by
  cases c with
  | none => exact absurd h (by simp [symCoerce])
  | some s0 =>
      unfold symCoerce at h
      simp only [Option.some_bind] at h
      cases hw : s0.data.all Char.isWhitespace
      · have hs : s0 = s := by
          rw [hw] at h
          simpa using h
        subst hs
        exact hw
      · rw [hw] at h
        simp at h

theorem cleanRow_none_of_sym {p : ProjRow} (h : symCoerce p.symbol = none) :
    cleanRow p = none := by
  simp [cleanRow, h]

theorem cleanRow_none_of_close {p : ProjRow} (h : closeCoerce p.close = none) :
    cleanRow p = none := by
  unfold cleanRow
  cases h1 : symCoerce p.symbol <;> simp [h]

theorem cleanRow_none_of_vol {p : ProjRow} (h : volCoerce p.volume = none) :
    cleanRow p = none := by
  unfold cleanRow
  cases h1 : symCoerce p.symbol <;> cases h2 : closeCoerce p.close <;> simp [h]

theorem cleanRow_none_of_date {p : ProjRow} (h : p.date.bind parseDate = none) :
    cleanRow p = none := by
  unfold cleanRow
  cases h1 : symCoerce p.symbol <;> cases h2 : closeCoerce p.close <;>
    cases h3 : volCoerce p.volume <;> simp [h]

theorem cleanProj_ok {rs : List ProjRow} {out : List CleanRecord}
    (h : cleanProj rs = .ok out) : out = rs.filterMap cleanRow := by
  unfold cleanProj at h
  cases hd : dateRaises rs <;> rw [hd] at h
  · exact (Except.ok.inj h).symm
  · exact absurd h (by simp)

theorem dateRaises_iff (rs : List ProjRow) :
    dateRaises rs = true ↔ ∃ p ∈ rs, ∃ s, p.date = some s ∧ parseDate s = none := by
  unfold dateRaises
  rw [List.any_eq_true]
  constructor
  · rintro ⟨p, hp, hm⟩
    refine ⟨p, hp, ?_⟩
    cases hd : p.date with
    | none => rw [hd] at hm; exact absurd hm (by simp)
    | some s =>
        rw [hd] at hm
        exact ⟨s, rfl, Option.isNone_iff_eq_none.mp hm⟩
  · rintro ⟨p, hp, s, hd, hn⟩
    exact ⟨p, hp, by rw [hd]; simp [hn]⟩

/-! ### Claim theorems (with counterexamples and witnesses) -/

/-- Claim C1, counterexample: a row one of whose cells strictly CONTAINS the
footer marker (here `"NIGERIAN EXCHANGE LIMITED"`).  The concatenation of its
cell values contains the marker string, yet the assembler keeps the row —
line 51's `"NIGERIAN EXCHANGE" not in row` is Python list membership, i.e.
exact cell equality, not substring search on the concatenation. -/
theorem c1_counterexample :
    specMarkerHit [some "1", some "NIGERIAN EXCHANGE LIMITED", some "2024-05-20"] = true ∧
    assembleDoc [some [[some "S/N"], [some "1", some "NIGERIAN EXCHANGE LIMITED"]]] "2024-05-20" =
      [[some "1", some "NIGERIAN EXCHANGE LIMITED", some "2024-05-20"]] := by
  exact ⟨by decide, by decide⟩

/-- Claim C1 (amended): an assembled row is excluded iff one of its cells is
EXACTLY the literal footer marker string; the check is applied after the
document date is appended (the filter runs on the date-stamped rows), and a
row with a marker cell never enters `all_data`, hence never reaches the
cleaner or the CleanRecord corpus, regardless of its numeric fields. -/
theorem c1_theorem (pages : List (Option (List RawRow))) (date : String) (row : RawRow) :
    (row ∈ assembleDoc pages date ↔ row ∈ stampPages pages date ∧ (some markerStr) ∉ row) ∧
    ((some markerStr) ∈ row → row ∉ assembleDoc pages date) ∧
    (∀ files : List PdfDoc, (some markerStr) ∈ row → row ∉ (processBatch files).1) := by
  refine ⟨mem_dropMarkerRows, ?_, ?_⟩
  · intro hm hmem
    exact ((mem_dropMarkerRows.mp hmem).2) hm
  · intro files hm hmem
    rw [processBatch_fst] at hmem
    rcases List.mem_flatMap.mp hmem with ⟨f, _, hrow⟩
    by_cases hp : endsWithPdf f.name
    · rw [if_pos hp] at hrow
      cases hf : processFile f with
      | error e => rw [hf] at hrow; exact absurd hrow (by simp)
      | ok rs =>
          rw [hf] at hrow
          rcases processFile_ok hf with ⟨d, pgs, _, _, hrs⟩
          rw [hrs] at hrow
          exact ((mem_dropMarkerRows.mp hrow).2) hm
    · rw [if_neg hp] at hrow
      exact absurd hrow (by simp)

/-- Claim C1, witness: a document whose lone data row is exactly the marker
cell; after date stamping it is dropped and appears in no batch output. -/
theorem c1_witness :
    (some markerStr) ∈ ([some markerStr, some "2024-05-20"] : RawRow) ∧
    ([some markerStr, some "2024-05-20"] : RawRow) ∉
      assembleDoc [some [[some "S/N"], [some markerStr]]] "2024-05-20" ∧
    ([some markerStr, some "2024-05-20"] : RawRow) ∉ (processBatch []).1 := by
  have hm : (some markerStr) ∈ ([some markerStr, some "2024-05-20"] : RawRow) :=
    List.mem_cons_self _ _
  exact ⟨hm,
    (c1_theorem [some [[some "S/N"], [some markerStr]]] "2024-05-20"
      [some markerStr, some "2024-05-20"]).2.1 hm,
    (c1_theorem [some [[some "S/N"], [some markerStr]]] "2024-05-20"
      [some markerStr, some "2024-05-20"]).2.2 [] hm⟩

/-- Claim C3, counterexample: the claim says volume text is parsed as a
NON-NEGATIVE INTEGER with any parse failure dropping the row; but
`pd.to_numeric` parses any signed decimal, so a `"-5"` volume cell survives
cleaning with value -5 < 0 instead of being dropped. -/
theorem c3_counterexample :
    cleanProj [⟨some "ABC", some "10", some "-5", some "2024-05-20"⟩] =
      .ok [⟨"ABC", 10, -5, 20240520⟩] ∧ (-5 : ℚ) < 0 := by
  exact ⟨by rfl, by norm_num⟩

/-- Claim C3 (amended): volume is coerced by first removing every grouping
comma from the cell's text form and then parsing it as a signed decimal
number (not restricted to non-negative integers); a parse failure yields a
missing value and the row is dropped, never defaulted.  `"12,345"` yields
12345, and an empty or all-whitespace volume yields a dropped row. -/
theorem c3_theorem :
    volCoerce (some "12,345") = some 12345 ∧
    volCoerce (some "") = none ∧
    volCoerce (some "   ") = none ∧
    volCoerce none = none ∧
    (∀ p : ProjRow, volCoerce p.volume = none → cleanRow p = none) ∧
    (∀ rs : List ProjRow, ∀ out : List CleanRecord, cleanProj rs = .ok out →
      ∀ r ∈ out, ∃ p ∈ rs, volCoerce p.volume = some r.volume) := by
  refine ⟨by decide, by decide, by decide, by decide, ?_, ?_⟩
  · intro p h
    exact cleanRow_none_of_vol h
  · intro rs out hok r hr
    rw [cleanProj_ok hok] at hr
    rcases List.mem_filterMap.mp hr with ⟨p, hp, hcr⟩
    exact ⟨p, hp, (cleanRow_eq_some hcr).2.2.1⟩

/-- Claim C3, witness: a concrete unparseable volume cell drops its row, and
a concrete cleaned corpus shows the parsed volume is never defaulted. -/
theorem c3_witness :
    volCoerce (some "12,34x") = none ∧
    cleanRow ⟨some "ABC", some "10", some "12,34x", some "2024-05-20"⟩ = none ∧
    (∃ p ∈ [(⟨some "ABC", some "10", some "1,000", some "2024-05-20"⟩ : ProjRow)],
      volCoerce p.volume = some (1000 : ℚ)) := by
  refine ⟨by decide, c3_theorem.2.2.2.2.1 _ (by decide), ?_⟩
  have h := c3_theorem.2.2.2.2.2
    [⟨some "ABC", some "10", some "1,000", some "2024-05-20"⟩]
    [⟨"ABC", 10, 1000, 20240520⟩] (by rfl) ⟨"ABC", 10, 1000, 20240520⟩ (by decide)
  exact h

/-- Claim C5, counterexample: a raw record whose date cell is present but
unparseable makes the cleaning pass raise (line 76 calls `pd.to_datetime`
WITHOUT `errors='coerce'`); the row is not silently dropped with a missing
date, contrary to the claim. -/
theorem c5_counterexample :
    cleanProj [⟨some "ABC", some "10", some "100", some "garbage"⟩] =
      .error dateErrMsg := by
  rfl

/-- Claim C5 (amended): a present-but-unparseable date cell makes the
cleaning pass terminate with an error (it is NOT converted to a missing
value), and this is the only way the pass errors; only a missing (absent)
date cell yields a missing value, whose row is then silently dropped. -/
theorem c5_theorem :
    (∀ rs : List ProjRow,
      (∃ e, cleanProj rs = .error e) ↔ ∃ p ∈ rs, ∃ s, p.date = some s ∧ parseDate s = none) ∧
    (∀ p : ProjRow, p.date = none → cleanRow p = none) := by
  constructor
  · intro rs
    constructor
    · rintro ⟨e, he⟩
      unfold cleanProj at he
      cases hd : dateRaises rs
      · rw [hd] at he; exact absurd he (by simp)
      · exact (dateRaises_iff rs).mp hd
    · intro hex
      refine ⟨dateErrMsg, ?_⟩
      unfold cleanProj
      rw [(dateRaises_iff rs).mpr hex]
      simp
  · intro p h
    apply cleanRow_none_of_date
    rw [h]
    rfl

/-- Claim C5, witness: the error case at a concrete corpus and the silent
drop at a concrete date-less row. -/
theorem c5_witness :
    (∃ e, cleanProj [⟨some "ABC", some "10", some "100", some "May 32"⟩] = .error e) ∧
    cleanRow ⟨some "ABC", some "10", some "100", none⟩ = none := by
  constructor
  · exact (c5_theorem.1 _).mpr
      ⟨⟨some "ABC", some "10", some "100", some "May 32"⟩, by decide, "May 32", rfl, by decide⟩
  · exact c5_theorem.2 _ rfl

/-- Claim C6 (confirmed): the cleaning pass is idempotent — re-applied to its
own already-typed output (where numeric and date coercions are the identity
and only the whitespace-symbol replacement plus `dropna` can drop rows), it
changes nothing: every surviving record's symbol already passed the
whitespace filter. -/
theorem c6_theorem (rs : List ProjRow) (out : List CleanRecord)
    (h : cleanProj rs = .ok out) : cleanTyped out = out := by
  rw [cleanProj_ok h]
  apply List.filter_eq_self.mpr
  intro r hr
  rcases List.mem_filterMap.mp hr with ⟨p, _, hcr⟩
  have hs := symCoerce_some (cleanRow_eq_some hcr).1
  simp [hs]

/-- Claim C6, witness: a concrete two-row corpus (one valid row, one blank
row) cleans to one typed record, and re-cleaning that output is a no-op. -/
theorem c6_witness :
    cleanProj [⟨some "ABC", some "10", some "1,000", some "2024-05-20"⟩,
               ⟨some " ", some "", some "", some "2024-05-21"⟩] =
      .ok [⟨"ABC", 10, 1000, 20240520⟩] ∧
    cleanTyped [⟨"ABC", 10, 1000, 20240520⟩] = [⟨"ABC", 10, 1000, 20240520⟩] := by
  refine ⟨by rfl, ?_⟩
  exact c6_theorem
    [⟨some "ABC", some "10", some "1,000", some "2024-05-20"⟩,
     ⟨some " ", some "", some "", some "2024-05-21"⟩]
    [⟨"ABC", 10, 1000, 20240520⟩] (by rfl)

/-- Claim C9 (confirmed): when zero valid rows remain after cleaning, the run
ends without error, prints the no-data diagnostic, and writes neither the
snapshot file nor the history file. -/
theorem c9_theorem (rows : List RawRow) (hist : Bool) (corpus : List CleanRecord)
    (hclean : cleanCorpus rows = .ok corpus) (hempty : corpus = []) :
    (postClean hist corpus).1 = [] ∧ (postClean hist corpus).2 = [noDataMsg] := by
  subst hempty
  exact ⟨rfl, rfl⟩

/-- Claim C9, witness: a corpus of one all-missing 14-cell row cleans to zero
records; no write action is emitted and the no-data message is. -/
theorem c9_witness :
    cleanCorpus [List.replicate 14 (none : Cell)] = .ok [] ∧
    (postClean false []).1 = [] ∧ (postClean false []).2 = [noDataMsg] := by
  refine ⟨by rfl, ?_⟩
  exact c9_theorem [List.replicate 14 (none : Cell)] false [] (by rfl) rfl

theorem le_maxWidth {rows : List RawRow} {r : RawRow} (h : r ∈ rows) :
    r.length ≤ maxWidth rows := by
  induction rows with
  | nil => cases h
  | cons a t ih =>
      rcases List.mem_cons.mp h with rfl | h2
      · simp only [maxWidth, List.foldr_cons]
        exact Nat.le_max_left _ _
      · simp only [maxWidth, List.foldr_cons]
        exact le_trans (ih h2) (Nat.le_max_right _ _)

/-- Claim C10, counterexample: `all_data` holding one 14-cell row and one
13-cell row does NOT raise — pandas pads the short row with a missing cell
(the maximum width, 14, matches the column count), so the run is not
aborted even though an assembled row has a cell count different from 14. -/
theorem c10_counterexample :
    tabulate [List.replicate 14 (some "x"), List.replicate 13 (some "y")] =
      .ok [List.replicate 14 (some "x"), List.replicate 13 (some "y") ++ [none]] ∧
    (List.replicate 13 (some "y") : RawRow).length ≠ numColumns := by
  exact ⟨by rfl, by decide⟩

/-- Claim C10 (amended): the `pd.DataFrame` tabulation raises (aborting the
run, outside the per-document handler) iff the MAXIMUM cell count over all
assembled rows differs from 14; when the maximum is 14, shorter rows are
padded with missing cells instead of raising — and such a padded row has a
missing date cell, so the cleaner later drops just that row.  Any single
row longer than 14 cells still aborts the whole run. -/
theorem c10_theorem (rows : List RawRow) :
    ((∃ e, tabulate rows = .error e) ↔ maxWidth rows ≠ numColumns) ∧
    (maxWidth rows = numColumns → tabulate rows = .ok (rows.map (padTo numColumns))) ∧
    (∀ r ∈ rows, numColumns < r.length → ∃ e, tabulate rows = .error e) ∧
    (∀ r : RawRow, r.length ≤ 13 → (projectRow (padTo numColumns r)).date = none) := by
  refine ⟨?_, ?_, ?_, ?_⟩
  · unfold tabulate
    by_cases h : maxWidth rows = numColumns <;> simp [h]
  · intro h
    unfold tabulate
    rw [if_pos h]
  · intro r hr hlen
    have hmax := le_maxWidth hr
    unfold tabulate
    have hne : maxWidth rows ≠ numColumns := by omega
    rw [if_neg hne]
    exact ⟨_, rfl⟩
  · intro r hlen
    show (padTo numColumns r).getD 13 none = none
    unfold padTo
    rw [List.getD_eq_getElem?_getD, List.getElem?_append_right (by omega)]
    rw [List.getElem?_replicate]
    have : 13 - r.length < numColumns - r.length := by
      unfold numColumns
      omega
    simp [this]

/-- Claim C10, witness: with the two-row corpus of the counterexample, the
maximum width is 14, tabulation pads rather than raising, and the padded
short row's date cell is missing. -/
theorem c10_witness :
    maxWidth [List.replicate 14 (some "x"), List.replicate 13 (some "y")] = numColumns ∧
    tabulate [List.replicate 14 (some "x"), List.replicate 13 (some "y")] =
      .ok ([List.replicate 14 (some "x"), List.replicate 13 (some "y")].map (padTo numColumns)) ∧
    (projectRow (padTo numColumns (List.replicate 13 (some "y")))).date = none := by
  refine ⟨by decide, ?_, ?_⟩
  · exact (c10_theorem [List.replicate 14 (some "x"), List.replicate 13 (some "y")]).2.1
      (by decide)
  · exact (c10_theorem []).2.2.2 (List.replicate 13 (some "y")) (by decide)

/-- Claim C7 (confirmed): the batch output is exactly the concatenation of
the per-document successes (a failing document — unresolvable filename date
or any open/read failure — contributes nothing but continues the batch), and
every failing `.pdf` document contributes one diagnostic naming the file;
no per-document failure aborts the batch. -/
theorem c7_theorem (files : List PdfDoc) :
    ((processBatch files).1 = files.flatMap (fun f =>
      if endsWithPdf f.name then
        match processFile f with
        | .ok rs => rs
        | .error _ => []
      else [])) ∧
    ((processBatch files).2 = files.filterMap (fun f =>
      if endsWithPdf f.name then
        match processFile f with
        | .ok _ => none
        | .error e => some ("Error processing " ++ f.name ++ ": " ++ e)
      else none)) ∧
    (∀ f ∈ files, ∀ e, endsWithPdf f.name = true → processFile f = .error e →
      ("Error processing " ++ f.name ++ ": " ++ e) ∈ (processBatch files).2) := by
  refine ⟨processBatch_fst files, processBatch_snd files, ?_⟩
  intro f hf e hp he
  rw [processBatch_snd]
  apply List.mem_filterMap.mpr
  refine ⟨f, hf, ?_⟩
  rw [if_pos hp, he]

/-- Claim C7, witness: a malformed filename between two well-formed documents
is skipped with a diagnostic naming it, while both other documents'
rows survive. -/
theorem c7_witness :
    processFile ⟨"BAD_NAME.pdf", .ok []⟩ =
      .error "time data does not match format: BAD_NAME.pdf" ∧
    ("Error processing BAD_NAME.pdf: time data does not match format: BAD_NAME.pdf") ∈
      (processBatch
        [⟨"DAILY_PRICE_LIST_May_20_2024.pdf", .ok [some [[some "h"], [some "r1"]]]⟩,
         ⟨"BAD_NAME.pdf", .ok []⟩,
         ⟨"DAILY_PRICE_LIST_May_21_2024.pdf", .ok [some [[some "h"], [some "r2"]]]⟩]).2 ∧
    (processBatch
        [⟨"DAILY_PRICE_LIST_May_20_2024.pdf", .ok [some [[some "h"], [some "r1"]]]⟩,
         ⟨"BAD_NAME.pdf", .ok []⟩,
         ⟨"DAILY_PRICE_LIST_May_21_2024.pdf", .ok [some [[some "h"], [some "r2"]]]⟩]).1 =
      [[some "r1", some "2024-05-20"], [some "r2", some "2024-05-21"]] := by
  refine ⟨by rfl, ?_, by rfl⟩
  have h := c7_theorem
    [⟨"DAILY_PRICE_LIST_May_20_2024.pdf", .ok [some [[some "h"], [some "r1"]]]⟩,
     ⟨"BAD_NAME.pdf", .ok []⟩,
     ⟨"DAILY_PRICE_LIST_May_21_2024.pdf", .ok [some [[some "h"], [some "r2"]]]⟩]
  exact h.2.2 ⟨"BAD_NAME.pdf", .ok []⟩
    (List.mem_cons_of_mem _ (List.mem_cons_self _ _))
    "time data does not match format: BAD_NAME.pdf" (by rfl) (by rfl)

/-! ### Helper lemmas: sorting, day indices, per-symbol series -/

theorem filter_orderedInsert (k : String × ℕ) (x : CleanRecord) (l : List CleanRecord) :
    (List.orderedInsert recLE x l).filter (fun r => decide (r.symbol = k.1 ∧ r.date = k.2)) =
      (if x.symbol = k.1 ∧ x.date = k.2 then [x] else []) ++
        l.filter (fun r => decide (r.symbol = k.1 ∧ r.date = k.2)) := by
  induction l with
  | nil =>
      simp only [List.orderedInsert, List.filter_cons, List.filter_nil]
      by_cases hpx : x.symbol = k.1 ∧ x.date = k.2 <;> simp [hpx]
  | cons y ys ih =>
      unfold List.orderedInsert
      by_cases hxy : recLE x y
      · rw [if_pos hxy]
        rw [List.filter_cons, List.filter_cons]
        by_cases hpx : x.symbol = k.1 ∧ x.date = k.2 <;> simp [hpx]
      · rw [if_neg hxy]
        rw [List.filter_cons, ih, List.filter_cons]
        by_cases hpy : y.symbol = k.1 ∧ y.date = k.2
        · by_cases hpx : x.symbol = k.1 ∧ x.date = k.2
          · exact absurd (Or.inr ⟨hpx.1.trans hpy.1.symm, by rw [hpx.2, hpy.2]⟩) hxy
          · simp [hpx, hpy]
        · simp [hpy]

theorem filter_insertionSort (k : String × ℕ) (l : List CleanRecord) :
    (List.insertionSort recLE l).filter (fun r => decide (r.symbol = k.1 ∧ r.date = k.2)) =
      l.filter (fun r => decide (r.symbol = k.1 ∧ r.date = k.2)) := by
  induction l with
  | nil => rfl
  | cons a t ih =>
      show (List.orderedInsert recLE a (List.insertionSort recLE t)).filter _ = _
      rw [filter_orderedInsert, ih, List.filter_cons]
      by_cases hpa : a.symbol = k.1 ∧ a.date = k.2 <;> simp [hpa]

theorem updFn_same {β : Type} (f : String → β) (k : String) (v : β) : updFn f k v k = v :=
  if_pos rfl

theorem updFn_other {β : Type} (f : String → β) (k : String) (v : β) (x : String)
    (h : x ≠ k) : updFn f k v x = f x :=
  if_neg h

theorem assignDays_days (l : List CleanRecord) (cnt : String → ℕ) (s : String) :
    ((assignDays l cnt).filter (fun p => decide (p.1.symbol = s))).map (fun p => p.2) =
      List.range' (cnt s + 1) ((l.filter (fun r => decide (r.symbol = s))).length) := by
  induction l generalizing cnt with
  | nil => rfl
  | cons r t ih =>
      by_cases hs : r.symbol = s
      · subst hs
        simp [assignDays, List.filter_cons, List.range'_succ, ih, updFn_same]
      · simp [assignDays, List.filter_cons, hs, ih,
          updFn_other cnt r.symbol (cnt r.symbol + 1) s (fun h => hs h.symm)]

theorem addReturns_filter (l : List (CleanRecord × ℕ)) (lastC : String → Option ℚ)
    (prodm : String → ℚ) (s : String) :
    (addReturns l lastC prodm).filter (fun d => decide (d.row.symbol = s)) =
      seriesReturns (l.filter (fun p => decide (p.1.symbol = s))) (lastC s) (prodm s) := by
  induction l generalizing lastC prodm with
  | nil => rfl
  | cons p t ih =>
      obtain ⟨r, d⟩ := p
      by_cases hs : r.symbol = s
      · subst hs
        simp [addReturns, seriesReturns, List.filter_cons, ih, updFn_same]
      · simp [addReturns, List.filter_cons, hs, ih,
          updFn_other lastC r.symbol (some r.close) s (fun h => hs h.symm),
          updFn_other prodm r.symbol _ s (fun h => hs h.symm)]

theorem symbolSeries_eq (c : List CleanRecord) (s : String) :
    symbolSeries c s = seriesReturns
      ((assignDays (sortRecords c) (fun _ => 0)).filter (fun p => decide (p.1.symbol = s)))
      none 1 := by
  unfold symbolSeries derivedCorpus
  exact addReturns_filter _ _ _ s

theorem seriesReturns_length (l : List (CleanRecord × ℕ)) (a : Option ℚ) (b : ℚ) :
    (seriesReturns l a b).length = l.length := by
  induction l generalizing a b with
  | nil => rfl
  | cons p t ih =>
      obtain ⟨r, d⟩ := p
      simp only [seriesReturns, List.length_cons, ih]

theorem seriesReturns_row (l : List (CleanRecord × ℕ)) (a : Option ℚ) (b : ℚ)
    (i : ℕ) (h : i < l.length) :
    ((seriesReturns l a b).get ⟨i, by rw [seriesReturns_length]; exact h⟩).row =
      (l.get ⟨i, h⟩).1 := by
  induction l generalizing a b i with
  | nil => cases h
  | cons p t ih =>
      obtain ⟨r, d⟩ := p
      cases i with
      | zero => rfl
      | succ j => exact ih _ _ j (Nat.lt_of_succ_lt_succ h)

theorem seriesReturns_day (l : List (CleanRecord × ℕ)) (a : Option ℚ) (b : ℚ) :
    (seriesReturns l a b).map (fun d => d.day) = l.map (fun p => p.2) := by
  induction l generalizing a b with
  | nil => rfl
  | cons p t ih =>
      obtain ⟨r, d⟩ := p
      simp only [seriesReturns, List.map_cons, ih]

theorem seriesReturns_growth (l : List (CleanRecord × ℕ)) (a : Option ℚ) (b : ℚ) :
    ∀ dr ∈ seriesReturns l a b,
      dr.growth = match dr.pct with | none => 1 | some p => p / 100 + 1 := by
  induction l generalizing a b with
  | nil => intro dr h; cases h
  | cons p t ih =>
      obtain ⟨r, d⟩ := p
      intro dr h
      rcases List.mem_cons.mp h with rfl | h2
      · cases a <;> rfl
      · exact ih _ _ dr h2

theorem seriesReturns_pct_succ (l : List (CleanRecord × ℕ)) (a : Option ℚ) (b : ℚ)
    (i : ℕ) (h : i + 1 < l.length) :
    ((seriesReturns l a b).get ⟨i + 1, by rw [seriesReturns_length]; exact h⟩).pct =
      some (((l.get ⟨i + 1, h⟩).1.close / (l.get ⟨i, Nat.lt_of_succ_lt h⟩).1.close - 1) * 100) := by
  induction l generalizing a b i with
  | nil => cases h
  | cons p t ih =>
      obtain ⟨r, d⟩ := p
      cases i with
      | zero =>
          cases t with
          | nil => exact absurd h (by simp)
          | cons q t2 => rfl
      | succ j => exact ih _ _ j (Nat.lt_of_succ_lt_succ h)

theorem seriesReturns_cumret (l : List (CleanRecord × ℕ)) (a : Option ℚ) (b : ℚ)
    (i : ℕ) (h : i < l.length) :
    ((seriesReturns l a b).get ⟨i, by rw [seriesReturns_length]; exact h⟩).cumret =
      ((((seriesReturns l a b).take (i + 1)).map (fun d => d.growth)).prod * b - 1) * 100 := by
  induction l generalizing a b i with
  | nil => cases h
  | cons p t ih =>
      obtain ⟨r, d⟩ := p
      cases i with
      | zero =>
          simp only [seriesReturns, List.take_succ_cons, List.take_zero, List.map_cons,
            List.map_nil, List.prod_cons, List.prod_nil, List.get]
          ring
      | succ j =>
          have hj : j < t.length := Nat.lt_of_succ_lt_succ h
          have heq := ih (some r.close)
            (b * (match Option.map (fun pv => (r.close / pv - 1) * 100) a with
                  | none => (1 : ℚ)
                  | some p => p / 100 + 1)) j hj
          simp only [seriesReturns, List.get_cons_succ, List.take_succ_cons,
            List.map_cons, List.prod_cons]
          rw [heq]
          ring

/-- Claim C4 (confirmed): after the time-series derivation, the corpus is
sorted by (symbol, date) ascending; the sort is stable (records sharing a
(symbol, date) key keep their original relative order); and within each
symbol the day-index values are exactly 1..N where N is that symbol's record
count. -/
theorem c4_theorem (c : List CleanRecord) (s : String) :
    List.Sorted recLE (sortRecords c) ∧
    (∀ k : String × ℕ,
      (sortRecords c).filter (fun r => decide (r.symbol = k.1 ∧ r.date = k.2)) =
        c.filter (fun r => decide (r.symbol = k.1 ∧ r.date = k.2))) ∧
    (symbolSeries c s).map (fun d => d.day) =
      List.range' 1 ((c.filter (fun r => decide (r.symbol = s))).length) := by
  refine ⟨List.sorted_insertionSort recLE c, fun k => filter_insertionSort k c, ?_⟩
  rw [symbolSeries_eq, seriesReturns_day, assignDays_days]
  have hlen : ((sortRecords c).filter (fun r => decide (r.symbol = s))).length =
      (c.filter (fun r => decide (r.symbol = s))).length :=
    ((List.perm_insertionSort recLE c).filter _).length_eq
  rw [hlen]

/-- Claim C2 (confirmed): in each symbol's derived series, the first record
has missing percent-change, growth exactly 1 and cumulative-return exactly
0; every later record's percent-change is the relative change of close
against the immediately preceding record of the same symbol times 100, its
growth is 1 + percent-change/100, and its cumulative-return is the running
product of the symbol's growth factors so far, minus 1, times 100. -/
theorem c2_theorem (c : List CleanRecord) (s : String) :
    (∀ first : DRec, (symbolSeries c s)[0]? = some first →
      first.pct = none ∧ first.growth = 1 ∧ first.cumret = 0) ∧
    (∀ i : ℕ, ∀ prev cur : DRec,
      (symbolSeries c s)[i]? = some prev → (symbolSeries c s)[i + 1]? = some cur →
      (prev.row.close ≠ 0 →
        cur.pct = some ((cur.row.close - prev.row.close) / prev.row.close * 100)) ∧
      (∀ p : ℚ, cur.pct = some p → cur.growth = 1 + p / 100) ∧
      cur.cumret = ((((symbolSeries c s).take (i + 2)).map (fun d => d.growth)).prod - 1) * 100) := by
  have hss := symbolSeries_eq c s
  constructor
  · intro first h1
    rw [hss] at h1
    cases hfl : (assignDays (sortRecords c) (fun _ => 0)).filter
        (fun p => decide (p.1.symbol = s)) with
    | nil => rw [hfl] at h1; exact absurd h1 (by simp [seriesReturns])
    | cons p t =>
        obtain ⟨r, d⟩ := p
        rw [hfl] at h1
        have : first = ⟨r, d, none, 1, ((1 : ℚ) * 1 - 1) * 100⟩ := by
          simpa [seriesReturns] using h1.symm
        subst this
        refine ⟨rfl, rfl, ?_⟩
        norm_num
  · intro i prev cur hprev hcur
    rw [hss] at hprev hcur
    rw [hss]
    rcases List.getElem?_eq_some_iff.mp hcur with ⟨hiS, heS⟩
    rcases List.getElem?_eq_some_iff.mp hprev with ⟨hiP, heP⟩
    have hfl : i + 1 <
        ((assignDays (sortRecords c) (fun _ => 0)).filter
          (fun p => decide (p.1.symbol = s))).length := by
      rw [← seriesReturns_length _ none 1]
      exact hiS
    have hrowC : cur.row =
        (((assignDays (sortRecords c) (fun _ => 0)).filter
          (fun p => decide (p.1.symbol = s))).get ⟨i + 1, hfl⟩).1 := by
      rw [← heS, ← seriesReturns_row _ none 1 (i + 1) hfl]
      simp [List.get_eq_getElem]
    have hrowP : prev.row =
        (((assignDays (sortRecords c) (fun _ => 0)).filter
          (fun p => decide (p.1.symbol = s))).get ⟨i, Nat.lt_of_succ_lt hfl⟩).1 := by
      rw [← heP, ← seriesReturns_row _ none 1 i (Nat.lt_of_succ_lt hfl)]
      simp [List.get_eq_getElem]
    have hpct : cur.pct = some ((cur.row.close / prev.row.close - 1) * 100) := by
      rw [hrowC, hrowP, ← heS]
      have := seriesReturns_pct_succ
        ((assignDays (sortRecords c) (fun _ => 0)).filter
          (fun p => decide (p.1.symbol = s))) none 1 i hfl
      simpa [List.get_eq_getElem] using this
    refine ⟨?_, ?_, ?_⟩
    · intro hz
      rw [hpct, div_sub_one hz]
    · intro p hp
      have hmem : cur ∈ seriesReturns
          ((assignDays (sortRecords c) (fun _ => 0)).filter
            (fun p => decide (p.1.symbol = s))) none 1 := by
        rw [← heS]
        exact List.getElem_mem _
      have hg := seriesReturns_growth _ none 1 cur hmem
      rw [hp] at hg
      rw [hg]
      ring
    · have := seriesReturns_cumret
        ((assignDays (sortRecords c) (fun _ => 0)).filter
          (fun p => decide (p.1.symbol = s))) none 1 (i + 1) hfl
      rw [← heS]
      simpa [List.get_eq_getElem] using this

/-- Claim C2, witness: the spec's own two-day scenario (closes 10 then 11):
day-1 record has missing pct, growth 1, cumulative return 0; day-2 record
has pct = relative change ×100 (= 10), growth 1 + 10/100, and cumulative
return = product of growths minus 1, times 100 (= 10). -/
theorem c2_witness :
    ∃ first cur : DRec,
      (symbolSeries [⟨"ABC", 11, 2000, 20240521⟩, ⟨"ABC", 10, 1000, 20240520⟩] "ABC")[0]? =
        some first ∧
      (symbolSeries [⟨"ABC", 11, 2000, 20240521⟩, ⟨"ABC", 10, 1000, 20240520⟩] "ABC")[1]? =
        some cur ∧
      first.pct = none ∧ first.growth = 1 ∧ first.cumret = 0 ∧
      cur.pct = some ((cur.row.close - first.row.close) / first.row.close * 100) ∧
      cur.growth = 1 + 10 / 100 ∧
      cur.cumret =
        ((((symbolSeries [⟨"ABC", 11, 2000, 20240521⟩,
            ⟨"ABC", 10, 1000, 20240520⟩] "ABC").take 2).map
          (fun d => d.growth)).prod - 1) * 100 := by
  have hl : symbolSeries [⟨"ABC", 11, 2000, 20240521⟩, ⟨"ABC", 10, 1000, 20240520⟩] "ABC" =
      [⟨⟨"ABC", 10, 1000, 20240520⟩, 1, none, 1, 0⟩,
       ⟨⟨"ABC", 11, 2000, 20240521⟩, 2, some 10, 11 / 10, 10⟩] := by
    simp [symbolSeries, derivedCorpus, sortRecords, List.insertionSort, List.orderedInsert,
      recLE, assignDays, addReturns, updFn, List.filter]
    norm_num
  have h0 : (symbolSeries [⟨"ABC", 11, 2000, 20240521⟩,
      ⟨"ABC", 10, 1000, 20240520⟩] "ABC")[0]? =
      some ⟨⟨"ABC", 10, 1000, 20240520⟩, 1, none, 1, 0⟩ := by rw [hl]; rfl
  have h1 : (symbolSeries [⟨"ABC", 11, 2000, 20240521⟩,
      ⟨"ABC", 10, 1000, 20240520⟩] "ABC")[1]? =
      some ⟨⟨"ABC", 11, 2000, 20240521⟩, 2, some 10, 11 / 10, 10⟩ := by rw [hl]; rfl
  obtain ⟨hpn, hg1, hc0⟩ := (c2_theorem _ "ABC").1 _ h0
  obtain ⟨hrel, hgrow, hcum⟩ := (c2_theorem _ "ABC").2 0 _ _ h0 h1
  exact ⟨_, _, h0, h1, hpn, hg1, hc0, hrel (by norm_num), hgrow 10 rfl, hcum⟩

theorem sumSq_nonneg (m : ℚ) : ∀ l : List ℚ, 0 ≤ (l.map (fun x => (x - m) ^ 2)).sum
  | [] => le_refl 0
  | x :: t => by
      rw [List.map_cons, List.sum_cons]
      exact add_nonneg (sq_nonneg _) (sumSq_nonneg m t)

theorem devSq_nonneg (l : List ℚ) : 0 ≤ devSq l :=
  sumSq_nonneg (listMean l) l

theorem corrPairs_length (c : List CleanRecord) :
    (corrPairs c).length = ((c.map (fun r => r.symbol)).dedup).length := by
  unfold corrPairs aggRows volRanked symbolsOf
  simp [List.length_insertionSort]

/-- Claim C8 (confirmed): with fewer than two distinct symbols the reported
correlation is a missing value (pandas `NaN`), not an error; with the
aggregate table in hand the reported value is exactly the Pearson
correlation coefficient over the joined per-symbol (total volume, mean
close) rows — `pearsonSpec` is the spec-side textbook formula. -/
theorem c8_theorem (c : List CleanRecord) :
    (((c.map (fun r => r.symbol)).dedup).length < 2 → corrOf c = none) ∧
    corrOf c = pearsonSpec (corrPairs c) := by
  constructor
  · intro h
    have hlen : (corrPairs c).length < 2 := by rw [corrPairs_length]; exact h
    unfold corrOf
    simp only [pearson]
    rw [if_pos (Or.inl hlen)]
  · unfold corrOf
    simp only [pearson, pearsonSpec]
    by_cases h : (corrPairs c).length < 2 ∨
        devSq ((corrPairs c).map (fun q => q.1)) = 0 ∨
        devSq ((corrPairs c).map (fun q => q.2)) = 0
    · rw [if_pos h, if_pos h]
    · rw [if_neg h, if_neg h]
      congr 1
      rw [← Real.sqrt_mul (by exact_mod_cast devSq_nonneg _)]

/-- Claim C8, witness: a one-symbol corpus has one aggregate row, and the
correlation is reported missing rather than raising. -/
theorem c8_witness :
    ((([⟨"ABC", 10, 1000, 20240520⟩] : List CleanRecord).map
      (fun r => r.symbol)).dedup).length < 2 ∧
    corrOf [⟨"ABC", 10, 1000, 20240520⟩] = none := by
  refine ⟨by decide, ?_⟩
  have h := c8_theorem [⟨"ABC", 10, 1000, 20240520⟩]
  exact h.1 (by decide)

end StockAnalysis
